import Mathlib

/-!
Verification of the Pub-Sub log aggregator's ingestion pipeline.

Shallow embedding of the store adapter (`src/aggregator/app/database.py`),
the event validator (`src/aggregator/app/models.py`) and the HTTP facade
(`src/aggregator/app/main.py`).  The relational store is modelled as an
explicit state value (`DB`): the events table, the singleton stats row and
the append-only audit log.  SQL statements become pure state transformers;
`NOW()` is modelled by a logical clock carried in the state.
-/

namespace Aggregator

/-- A validated event, the input of `process_event`
(`app/models.py`, class `Event`). Timestamps are abstract instants. -/
structure Event where
  topic : String
  event_id : String
  timestamp : Int
  source : String
  payload : List (String × String)
  deriving Repr, DecidableEq

/-- A row of the `events` table: the event's columns plus `worker_id` and
the store-assigned `processed_at` (default `NOW()` at insert). -/
structure StoredEvent where
  topic : String
  event_id : String
  timestamp : Int
  source : String
  payload : List (String × String)
  worker_id : String
  processed_at : Int
  deriving Repr, DecidableEq

/-- A row of the append-only `audit_log` table. -/
structure AuditRow where
  topic : String
  event_id : String
  is_duplicate : Bool
  worker_id : String
  deriving Repr, DecidableEq

/-- The singleton `stats` row (`WHERE id = 1`). -/
structure Stats where
  received : Nat
  unique_processed : Nat
  duplicate_dropped : Nat
  last_updated_at : Int
  deriving Repr, DecidableEq

/-- The visible state of the relational store: the three relations plus a
logical clock standing for `NOW()`. -/
structure DB where
  events : List StoredEvent
  stats : Stats
  audit_log : List AuditRow
  clock : Int
  deriving Repr, DecidableEq

/-- Does a stored row carry the dedup key `(topic, event_id)`? -/
def keyIs (se : StoredEvent) (t i : String) : Bool :=
  se.topic == t && se.event_id == i

/-- The UNIQUE constraint check on `(topic, event_id)`: does the events
table already hold a row with this key? -/
def hasKey (db : DB) (t i : String) : Bool :=
  db.events.any (fun se => keyIs se t i)

/-- The row inserted by
`INSERT INTO events (topic, event_id, timestamp, source, payload, worker_id)`,
with `processed_at` defaulted to the store clock. -/
def storedOf (e : Event) (worker_id : String) (now : Int) : StoredEvent :=
  { topic := e.topic, event_id := e.event_id, timestamp := e.timestamp,
    source := e.source, payload := e.payload, worker_id := worker_id,
    processed_at := now }

/-- The `UPDATE stats SET received = received + r, ... WHERE id = 1`
statement with relative deltas. -/
def bumpStats (s : Stats) (r u d : Nat) (now : Int) : Stats :=
  { received := s.received + r,
    unique_processed := s.unique_processed + u,
    duplicate_dropped := s.duplicate_dropped + d,
    last_updated_at := now }

/-- `process_event` (`app/database.py`, lines 109-187): inside one
transaction, attempt the idempotent insert with
`ON CONFLICT (topic, event_id) DO NOTHING RETURNING id`, update the
singleton stats row, append an audit row, and return
`(success, is_duplicate)`. -/
def process_event (db : DB) (e : Event) (worker_id : String) :
    DB × (Bool × Bool) :=
  let is_duplicate := hasKey db e.topic e.event_id
  let events' :=
    if is_duplicate then db.events
    else db.events ++ [storedOf e worker_id db.clock]
  let stats' := bumpStats db.stats 1
    (if is_duplicate then 0 else 1)
    (if is_duplicate then 1 else 0)
    db.clock
  let audit' := db.audit_log ++
    [{ topic := e.topic, event_id := e.event_id,
       is_duplicate := is_duplicate, worker_id := worker_id }]
  ({ events := events', stats := stats', audit_log := audit',
     clock := db.clock + 1 },
   (true, is_duplicate))

/-- The per-event loop body of `process_events_batch`: idempotent insert
and audit append only — the stats row is not touched inside the loop. -/
def batchStep (worker_id : String) (acc : DB × Nat × Nat) (e : Event) :
    DB × Nat × Nat :=
  let d := acc.1
  let processed := acc.2.1
  let duplicates := acc.2.2
  let is_duplicate := hasKey d e.topic e.event_id
  let events' :=
    if is_duplicate then d.events
    else d.events ++ [storedOf e worker_id d.clock]
  let audit' := d.audit_log ++
    [{ topic := e.topic, event_id := e.event_id,
       is_duplicate := is_duplicate, worker_id := worker_id }]
  ({ events := events', stats := d.stats, audit_log := audit',
     clock := d.clock + 1 },
   (if is_duplicate then processed else processed + 1),
   (if is_duplicate then duplicates + 1 else duplicates))

/-- `process_events_batch` (`app/database.py`, lines 190-263): inside one
transaction, loop over the events doing insert + audit while counting
`(processed, duplicates)`, then perform a single stats update with the
batch totals. -/
def process_events_batch (db : DB) (es : List Event) (worker_id : String) :
    DB × (Nat × Nat) :=
  let r := es.foldl (batchStep worker_id) (db, 0, 0)
  let d := r.1
  let processed := r.2.1
  let duplicates := r.2.2
  ({ d with stats := bumpStats db.stats es.length processed duplicates d.clock },
   (processed, duplicates))

/-! ### Iterated admission (for the idempotence claim) -/

/-- Admit the same event `n` times in sequence through `process_event`. -/
def admitN (db : DB) (e : Event) (w : String) : Nat → DB
  | 0 => db
  | n + 1 => (process_event (admitN db e w n) e w).1

/-! ### Spec-side counting for the batch refinement claim -/

/-- The dedup keys currently stored in the events table. -/
def dbKeys (db : DB) : List (String × String) :=
  db.events.map (fun se => (se.topic, se.event_id))

/-- Modelled from the spec's words (claim C3): an event of a batch counts
as processed exactly when its `(topic, event_id)` key is not already
stored, keys introduced by earlier events of the same batch included. -/
def specNewCount : List (String × String) → List Event → Nat
  | _, [] => 0
  | keys, e :: rest =>
    if (e.topic, e.event_id) ∈ keys then specNewCount keys rest
    else specNewCount (keys ++ [(e.topic, e.event_id)]) rest + 1

/-! ### Event validation (`app/models.py`) -/

/-- Whitespace in the sense of Python's `str.strip()` (ASCII range). -/
def pyIsSpace (c : Char) : Bool :=
  c == ' ' || c == '\t' || c == '\n' || c == '\r' || c == '\x0b' || c == '\x0c'

/-- Python's `str.strip()`: remove leading and trailing whitespace. -/
def pyStrip (s : String) : String :=
  String.mk (((s.data.dropWhile pyIsSpace).reverse.dropWhile pyIsSpace).reverse)

/-- Pydantic validation of the `topic` / `event_id` fields
(`app/models.py`, lines 22-42).  The `Field(min_length=1, max_length=255)`
constraints run on the raw value first; the after-mode `field_validator`
then strips surrounding whitespace, rejects when the stripped value is
empty, and returns the stripped value. -/
def validateKeyField (v : String) : Option String :=
  if v.length < 1 then none
  else if 255 < v.length then none
  else
    let t := pyStrip v
    if t = "" then none else some t

/-- Modelled from the spec's words (claim C4), for comparison with
`validateKeyField`: trim first, then reject exactly when the trimmed
value is empty or longer than 255 characters. -/
def specValidateKeyField (v : String) : Option String :=
  let t := pyStrip v
  if t = "" then none
  else if 255 < t.length then none
  else some t

/-! ### Event queries (`get_events`, `app/database.py` lines 266-315,
and the `/events` endpoint, `app/main.py` lines 205-231) -/

/-- Newest-first order on stored rows (`ORDER BY timestamp DESC`). -/
def newestFirst (a b : StoredEvent) : Prop :=
  b.timestamp ≤ a.timestamp

instance : DecidableRel newestFirst :=
  fun a b => decidable_of_iff (b.timestamp ≤ a.timestamp) Iff.rfl

instance : IsTotal StoredEvent newestFirst :=
  ⟨fun a b => (le_total b.timestamp a.timestamp).imp id id⟩

instance : IsTrans StoredEvent newestFirst :=
  ⟨fun _ _ _ hab hbc => le_trans hbc hab⟩

/-- The `WHERE topic = $1` filter (absent when no topic is given). -/
def rowsFor (db : DB) (topic : Option String) : List StoredEvent :=
  match topic with
  | some t => db.events.filter (fun se => se.topic == t)
  | none => db.events

/-- `get_events`: `SELECT ... ORDER BY timestamp DESC LIMIT l OFFSET o`,
optionally filtered by topic. -/
def get_events (db : DB) (topic : Option String) (limit offset : Nat) :
    List StoredEvent :=
  ((List.insertionSort newestFirst (rowsFor db topic)).drop offset).take limit

/-- FastAPI validation of the `limit` query parameter
(`app/main.py`, line 208): `Query(100, ge=1, le=1000)`.  An absent
parameter takes the default `100`; an out-of-range value is rejected with
a validation error, not clamped. -/
def validateLimit (l : Option Int) : Option Int :=
  match l with
  | none => some 100
  | some v => if 1 ≤ v ∧ v ≤ 1000 then some v else none

/-- FastAPI validation of the `offset` query parameter
(`app/main.py`, line 209): `Query(0, ge=0)`. -/
def validateOffset (o : Option Int) : Option Int :=
  match o with
  | none => some 0
  | some v => if 0 ≤ v then some v else none

/-- Modelled from the spec's words (claim C7), for comparison with
`validateLimit`: `limit` clamped into the range `[1, 1000]`. -/
def clampLimit (l : Int) : Int :=
  max 1 (min 1000 l)

/-! ### Stats snapshot (`get_stats`, `app/database.py` lines 331-390) -/

/-- Round to two decimal places, real arithmetic modelled over `ℚ`. -/
def round2 (q : ℚ) : ℚ :=
  ((round (q * 100) : ℤ) : ℚ) / 100

/-- The duplicate-rate computation of `get_stats` (lines 370-385):
`duplicate_dropped / received * 100` when `received > 0` else `0.0`, and
the result is passed through `round(…, 2)`. -/
def duplicate_rate (s : Stats) : ℚ :=
  round2 (if 0 < s.received
          then (s.duplicate_dropped : ℚ) / (s.received : ℚ) * 100
          else 0)

/-- Modelled from the spec's words (claim C8), for comparison with
`duplicate_rate`: the ratio rounded to 2 decimal places when
`received > 0`, and exactly `0.0` otherwise. -/
def specDuplicateRate (s : Stats) : ℚ :=
  if 0 < s.received
  then round2 ((s.duplicate_dropped : ℚ) / (s.received : ℚ) * 100)
  else 0

/-! ### The `/publish` facade (`app/main.py` lines 146-202) -/

/-- The response body of `POST /publish` (`app/models.py`,
class `PublishResponse`; the `message` text is not modelled). -/
structure PublishResponse where
  success : Bool
  received : Nat
  processed : Nat
  duplicates : Nat
  event_ids : List String
  deriving Repr, DecidableEq

/-- The `sync=false` branch of `POST /publish` (`app/main.py`,
lines 187-198): after publishing the batch to the transport, answer with
`received = len(events)` and zero `processed` / `duplicates`. -/
def publishAsyncResponse (events : List Event) : PublishResponse :=
  { success := true,
    received := events.length,
    processed := 0,
    duplicates := 0,
    event_ids := events.map (fun e => e.event_id) }

/-! ### Transaction rollback (`transaction`, `app/database.py`
lines 81-106) -/

/-- The body of `process_event`'s transaction with a fault flag for each
statement: the idempotent insert, the stats update and the audit append
may each fail with a store error. -/
def admitBody (e : Event) (w : String)
    (failInsert failStats failAudit : Bool) (db : DB) : Except String DB :=
  if failInsert then Except.error "insert failed"
  else
    let is_duplicate := hasKey db e.topic e.event_id
    let db1 := { db with
      events := if is_duplicate then db.events
                else db.events ++ [storedOf e w db.clock] }
    if failStats then Except.error "stats update failed"
    else
      let db2 := { db1 with
        stats := bumpStats db.stats 1
          (if is_duplicate then 0 else 1)
          (if is_duplicate then 1 else 0)
          db.clock }
      if failAudit then Except.error "audit insert failed"
      else Except.ok { db2 with
        audit_log := db2.audit_log ++
          [{ topic := e.topic, event_id := e.event_id,
             is_duplicate := is_duplicate, worker_id := w }],
        clock := db.clock + 1 }

/-- The `transaction` context manager: start, run the body, commit on
success; on any exception roll back (the visible store state is the
original one) and re-raise the error to the caller. -/
def transaction (body : DB → Except String DB) (db : DB) :
    DB × Option String :=
  match body db with
  | Except.ok db' => (db', none)
  | Except.error msg => (db, some msg)

/-- `process_event` run through the transaction wrapper, with the fault
flags of `admitBody`. -/
def process_event_fallible (db : DB) (e : Event) (w : String)
    (fi fs fa : Bool) : DB × Option String :=
  transaction (admitBody e w fi fs fa) db

/-! ### Sample values used by the witness theorems -/

/-- The freshly bootstrapped store: empty tables, zeroed counters. -/
def db0 : DB :=
  { events := [],
    stats := { received := 0, unique_processed := 0,
               duplicate_dropped := 0, last_updated_at := 0 },
    audit_log := [],
    clock := 0 }

/-- A sample event on topic `alpha`. -/
def evA : Event :=
  { topic := "alpha", event_id := "X", timestamp := 0, source := "s",
    payload := [] }

/-- A sample event on topic `beta` sharing `evA`'s event id. -/
def evB : Event :=
  { topic := "beta", event_id := "X", timestamp := 0, source := "s",
    payload := [] }


lemma process_event_fresh (db : DB) (e : Event) (w : String)
    (h : hasKey db e.topic e.event_id = false) :
    (process_event db e w).1 =
      { events := db.events ++ [storedOf e w db.clock],
        stats := bumpStats db.stats 1 1 0 db.clock,
        audit_log := db.audit_log ++
          [{ topic := e.topic, event_id := e.event_id,
             is_duplicate := false, worker_id := w }],
        clock := db.clock + 1 } := by
  simp [process_event, h]

lemma process_event_dup (db : DB) (e : Event) (w : String)
    (h : hasKey db e.topic e.event_id = true) :
    (process_event db e w).1 =
      { events := db.events,
        stats := bumpStats db.stats 1 0 1 db.clock,
        audit_log := db.audit_log ++
          [{ topic := e.topic, event_id := e.event_id,
             is_duplicate := true, worker_id := w }],
        clock := db.clock + 1 } := by
  simp [process_event, h]

lemma hasKey_of_events_eq {db db' : DB} (h : db'.events = db.events)
    (t i : String) : hasKey db' t i = hasKey db t i := by
  simp [hasKey, h]

lemma hasKey_process_event (db : DB) (e : Event) (w : String) :
    hasKey (process_event db e w).1 e.topic e.event_id = true := by
  cases h : hasKey db e.topic e.event_id
  · rw [process_event_fresh db e w h]
    simp [hasKey, List.any_append, keyIs, storedOf]
  · rw [process_event_dup db e w h]
    simpa [hasKey] using h

lemma admitN_shift (db : DB) (e : Event) (w : String) :
    ∀ m, admitN db e w (m + 1) = admitN (process_event db e w).1 e w m := by
  intro m
  induction m with
  | zero => rfl
  | succ k ih =>
    show (process_event (admitN db e w (k + 1)) e w).1 =
      admitN (process_event db e w).1 e w (k + 1)
    rw [ih]
    rfl

lemma admitN_dup (e : Event) (w : String) :
    ∀ (m : Nat) (db1 : DB), hasKey db1 e.topic e.event_id = true →
    (admitN db1 e w m).events = db1.events ∧
    (admitN db1 e w m).stats.received = db1.stats.received + m ∧
    (admitN db1 e w m).stats.unique_processed = db1.stats.unique_processed ∧
    (admitN db1 e w m).stats.duplicate_dropped = db1.stats.duplicate_dropped + m ∧
    (admitN db1 e w m).audit_log = db1.audit_log ++
      List.replicate m
        { topic := e.topic, event_id := e.event_id,
          is_duplicate := true, worker_id := w } := by
  intro m
  induction m with
  | zero => intro db1 h; simp [admitN]
  | succ k ih =>
    intro db1 h
    obtain ⟨h1, h2, h3, h4, h5⟩ := ih db1 h
    have hk : hasKey (admitN db1 e w k) e.topic e.event_id = true :=
      (hasKey_of_events_eq h1 _ _).trans h
    have hstep : admitN db1 e w (k + 1) =
        { events := (admitN db1 e w k).events,
          stats := bumpStats (admitN db1 e w k).stats 1 0 1 (admitN db1 e w k).clock,
          audit_log := (admitN db1 e w k).audit_log ++
            [{ topic := e.topic, event_id := e.event_id,
               is_duplicate := true, worker_id := w }],
          clock := (admitN db1 e w k).clock + 1 } := by
      show (process_event (admitN db1 e w k) e w).1 = _
      rw [process_event_dup _ e w hk]
    rw [hstep]
    refine ⟨h1, ?_, ?_, ?_, ?_⟩
    · simp [bumpStats, h2, Nat.add_assoc]
    · simpa [bumpStats] using h3
    · simp [bumpStats, h4, Nat.add_assoc]
    · simp [h5, List.replicate_succ', List.append_assoc]

/-- C1: Admitting the same event N times (N >= 1, the event not yet
stored) leaves the events table in the same state as admitting it once,
while `received` grows by N, `unique_processed` by 1 and
`duplicate_dropped` by N-1, and the audit log gains exactly N rows for
the event's key of which exactly one has `is_duplicate = false`. -/
theorem admit_same_event_idempotent (db : DB) (e : Event) (w : String)
    (n : Nat) (hn : 1 ≤ n)
    (hfresh : hasKey db e.topic e.event_id = false) :
    (admitN db e w n).events = (admitN db e w 1).events ∧
    (admitN db e w n).stats.received = db.stats.received + n ∧
    (admitN db e w n).stats.unique_processed =
      db.stats.unique_processed + 1 ∧
    (admitN db e w n).stats.duplicate_dropped =
      db.stats.duplicate_dropped + (n - 1) ∧
    (admitN db e w n).audit_log = db.audit_log ++
      ({ topic := e.topic, event_id := e.event_id,
         is_duplicate := false, worker_id := w } ::
        List.replicate (n - 1)
          { topic := e.topic, event_id := e.event_id,
            is_duplicate := true, worker_id := w }) := by
  obtain ⟨k, rfl⟩ : ∃ k, n = k + 1 :=
    ⟨n - 1, (Nat.succ_pred_eq_of_pos hn).symm⟩
  have hone : admitN db e w 1 = (process_event db e w).1 := rfl
  have hdb1 : hasKey (process_event db e w).1 e.topic e.event_id = true :=
    hasKey_process_event db e w
  obtain ⟨h1, h2, h3, h4, h5⟩ := admitN_dup e w k (process_event db e w).1 hdb1
  rw [admitN_shift db e w k]
  rw [process_event_fresh db e w hfresh] at hone hdb1 h1 h2 h3 h4 h5 ⊢
  refine ⟨?_, ?_, ?_, ?_, ?_⟩
  · rw [h1, hone]
  · rw [h2]; simp only [bumpStats]; omega
  · rw [h3]; simp [bumpStats]
  · rw [h4]; simp only [bumpStats]; omega
  · rw [h5]; simp [List.append_assoc]

lemma hasKey_iff_mem (db : DB) (t i : String) :
    hasKey db t i = true ↔ (t, i) ∈ dbKeys db := by
  simp only [hasKey, dbKeys, keyIs, List.any_eq_true, List.mem_map,
    Bool.and_eq_true, beq_iff_eq, Prod.ext_iff]

lemma batchLoop_spec (w : String) :
    ∀ (es : List Event) (db : DB) (p q : Nat),
    (es.foldl (batchStep w) (db, p, q)).1.stats = db.stats ∧
    (es.foldl (batchStep w) (db, p, q)).1.audit_log.length =
      db.audit_log.length + es.length ∧
    (es.foldl (batchStep w) (db, p, q)).2.1 +
      (es.foldl (batchStep w) (db, p, q)).2.2 = p + q + es.length ∧
    (es.foldl (batchStep w) (db, p, q)).2.1 =
      p + specNewCount (dbKeys db) es := by
  intro es
  induction es with
  | nil => intro db p q; simp [specNewCount]
  | cons e rest ih =>
    intro db p q
    cases hk : hasKey db e.topic e.event_id
    · have hmem : ¬ ((e.topic, e.event_id) ∈ dbKeys db) := by
        rw [← hasKey_iff_mem, hk]; simp
      simp only [List.foldl_cons, batchStep, hk, Bool.false_eq_true,
        if_false, List.length_cons, specNewCount, hmem, if_neg]
      obtain ⟨i1, i2, i3, i4⟩ := ih
        { events := db.events ++ [storedOf e w db.clock],
          stats := db.stats,
          audit_log := db.audit_log ++
            [{ topic := e.topic, event_id := e.event_id,
               is_duplicate := false, worker_id := w }],
          clock := db.clock + 1 } (p + 1) q
      refine ⟨i1, ?_, ?_, ?_⟩
      · rw [i2]; simp [List.length_append]; omega
      · rw [i3]; omega
      · rw [i4]; simp only [dbKeys, List.map_append, storedOf]; simp [dbKeys]; omega
    · have hmem : (e.topic, e.event_id) ∈ dbKeys db := by
        rw [← hasKey_iff_mem]; exact hk
      simp only [List.foldl_cons, batchStep, hk, if_true,
        List.length_cons, specNewCount, hmem, if_pos]
      obtain ⟨i1, i2, i3, i4⟩ := ih
        { events := db.events,
          stats := db.stats,
          audit_log := db.audit_log ++
            [{ topic := e.topic, event_id := e.event_id,
               is_duplicate := true, worker_id := w }],
          clock := db.clock + 1 } p (q + 1)
      refine ⟨i1, ?_, ?_, ?_⟩
      · rw [i2]; simp [List.length_append]; omega
      · rw [i3]; omega
      · rw [i4]; simp [dbKeys]

/-- C2: Both `process_event` and `process_events_batch` preserve the
invariant `received = unique_processed + duplicate_dropped` on the
singleton stats row at the commit boundary, and `received` never
decreases. -/
theorem stats_invariant_preserved (db : DB) (e : Event) (es : List Event)
    (w : String)
    (h : db.stats.received =
      db.stats.unique_processed + db.stats.duplicate_dropped) :
    ((process_event db e w).1.stats.received =
        (process_event db e w).1.stats.unique_processed +
          (process_event db e w).1.stats.duplicate_dropped ∧
      db.stats.received ≤ (process_event db e w).1.stats.received) ∧
    ((process_events_batch db es w).1.stats.received =
        (process_events_batch db es w).1.stats.unique_processed +
          (process_events_batch db es w).1.stats.duplicate_dropped ∧
      db.stats.received ≤ (process_events_batch db es w).1.stats.received) := by
  constructor
  · cases hk : hasKey db e.topic e.event_id
    · rw [process_event_fresh db e w hk]; simp only [bumpStats]; omega
    · rw [process_event_dup db e w hk]; simp only [bumpStats]; omega
  · obtain ⟨_, _, i3, _⟩ := batchLoop_spec w es db 0 0
    simp only [process_events_batch, bumpStats]
    omega

/-- C3: `process_events_batch` on N events returns
`(processed, duplicates)` with `processed + duplicates = N`, where an
event counts as processed iff its `(topic, event_id)` key was not
already stored (keys of earlier events in the same batch included); it
appends one audit row per event and its single stats update adds N to
`received`, `processed` to `unique_processed` and `duplicates` to
`duplicate_dropped`. -/
theorem process_events_batch_correct (db : DB) (es : List Event)
    (w : String) :
    (process_events_batch db es w).2.1 +
      (process_events_batch db es w).2.2 = es.length ∧
    (process_events_batch db es w).2.1 = specNewCount (dbKeys db) es ∧
    (process_events_batch db es w).1.audit_log.length =
      db.audit_log.length + es.length ∧
    (process_events_batch db es w).1.stats.received =
      db.stats.received + es.length ∧
    (process_events_batch db es w).1.stats.unique_processed =
      db.stats.unique_processed + (process_events_batch db es w).2.1 ∧
    (process_events_batch db es w).1.stats.duplicate_dropped =
      db.stats.duplicate_dropped + (process_events_batch db es w).2.2 := by
  obtain ⟨i1, i2, i3, i4⟩ := batchLoop_spec w es db 0 0
  refine ⟨?_, ?_, ?_, ?_, ?_, ?_⟩ <;>
    simp only [process_events_batch, bumpStats] <;> omega

/-- C5: Deduplication is keyed on the pair `(topic, event_id)`, never on
`event_id` alone: admitting `(A, X)` and then `(B, X)` with distinct
topics A and B records both as new. -/
theorem dedup_key_is_topic_and_event_id (db : DB) (e1 e2 : Event)
    (w1 w2 : String)
    (hid : e1.event_id = e2.event_id) (htopic : e1.topic ≠ e2.topic)
    (h1 : hasKey db e1.topic e1.event_id = false)
    (h2 : hasKey db e2.topic e2.event_id = false) :
    (process_event db e1 w1).2.2 = false ∧
    (process_event (process_event db e1 w1).1 e2 w2).2.2 = false := by
  constructor
  · simpa [process_event] using h1
  · have hev : (process_event db e1 w1).1.events =
        db.events ++ [storedOf e1 w1 db.clock] := by
      rw [process_event_fresh db e1 w1 h1]
    have hsnd : (process_event (process_event db e1 w1).1 e2 w2).2.2 =
        hasKey (process_event db e1 w1).1 e2.topic e2.event_id := rfl
    rw [hsnd]
    simp only [hasKey, hev, List.any_append, List.any_cons, List.any_nil,
      Bool.or_eq_false_iff]
    simp only [hasKey] at h2
    refine ⟨h2, ?_, trivial⟩
    simp [keyIs, storedOf, beq_eq_false_iff_ne, htopic]

lemma admitBody_ok (db : DB) (e : Event) (w : String) :
    admitBody e w false false false db = Except.ok (process_event db e w).1 := rfl

/-- C6: If any statement of the admit transaction fails (insert, stats
update or audit append), the whole transaction is rolled back and the
error is surfaced: the events table, the stats row and the audit log are
left unchanged. -/
theorem admit_rolls_back_on_failure (db : DB) (e : Event) (w : String)
    (fi fs fa : Bool) (hfail : (fi || fs || fa) = true) :
    (process_event_fallible db e w fi fs fa).1.events = db.events ∧
    (process_event_fallible db e w fi fs fa).1.stats = db.stats ∧
    (process_event_fallible db e w fi fs fa).1.audit_log = db.audit_log ∧
    (process_event_fallible db e w fi fs fa).2.isSome = true := by
  cases fi <;> cases fs <;> cases fa <;>
    simp_all [process_event_fallible, transaction, admitBody]

/-- C7, counterexample: the claim says `limit` is clamped into
`[1, 1000]`, but at `limit = 1001` the endpoint rejects the request with
a validation error (`validateLimit` returns `none`) instead of serving
it with the clamped value 1000. -/
theorem limit_is_validated_not_clamped_cex :
    validateLimit (some 1001) = none ∧ clampLimit 1001 = 1000 := by
  constructor <;> decide

/-- C7, amended: the `limit` parameter defaults to 100 and is accepted
exactly when it lies in `[1, 1000]` (out-of-range values are rejected
with a validation error, not clamped); `offset` defaults to 0 and must
be nonnegative; the returned events are ordered newest-first by
timestamp, at most `limit` of them, and the offset pages through the
same newest-first ordering. -/
theorem list_events_pagination (db : DB) (t : Option String)
    (l o : Nat) :
    List.Sorted newestFirst (get_events db t l o) ∧
    (get_events db t l o).length ≤ l ∧
    (get_events db t (l + o) 0).drop o = get_events db t l o ∧
    validateLimit none = some 100 ∧
    validateOffset none = some 0 ∧
    (∀ v : Int, (validateLimit (some v)).isSome = decide (1 ≤ v ∧ v ≤ 1000)) ∧
    (∀ v : Int, (validateOffset (some v)).isSome = decide (0 ≤ v)) := by
  refine ⟨?_, ?_, ?_, rfl, rfl, ?_, ?_⟩
  · exact List.Pairwise.sublist
      ((List.take_sublist _ _).trans (List.drop_sublist _ _))
      (List.sorted_insertionSort newestFirst (rowsFor db t))
  · exact List.length_take_le _ _
  · simp only [get_events, List.drop_zero, List.drop_take]
    congr 1
    omega
  · intro v
    by_cases h : 1 ≤ v ∧ v ≤ 1000 <;> simp [validateLimit, h]
  · intro v
    by_cases h : 0 ≤ v <;> simp [validateOffset, h]

/-- C8: in every stats snapshot the duplicate rate equals
`duplicate_dropped / received * 100` rounded to 2 decimal places when
`received > 0`, and `0.0` when `received = 0` (real arithmetic modelled
over the rationals). -/
theorem duplicate_rate_formula (s : Stats) :
    duplicate_rate s = specDuplicateRate s := by
  unfold duplicate_rate specDuplicateRate
  by_cases h : 0 < s.received
  · simp [h]
  · simp [h, round2]

/-- C9: for a submission of N events with `sync=false`, the response
reports success with `received = N`, `processed = 0` and
`duplicates = 0`; no dedup result is returned on this path. -/
theorem async_publish_response (events : List Event) :
    (publishAsyncResponse events).success = true ∧
    (publishAsyncResponse events).received = events.length ∧
    (publishAsyncResponse events).processed = 0 ∧
    (publishAsyncResponse events).duplicates = 0 ∧
    (publishAsyncResponse events).event_ids =
      events.map (fun e => e.event_id) := by
  refine ⟨rfl, rfl, rfl, rfl, rfl⟩

/-- C10: whenever `process_event` returns, the first component of its
`(success, is_duplicate)` result is `True`; failure is only ever
signalled by an exception, so the flag is never `False`. -/
theorem process_event_success_always_true (db : DB) (e : Event)
    (w : String) : (process_event db e w).2.1 = true := rfl

set_option maxRecDepth 8192 in
/-- C4, counterexample: a topic of 255 letters followed by one trailing
space has raw length 256, so the code rejects it at the raw
`max_length=255` check even though its trimmed value is a nonempty
255-character string that the claim (trim first, then check the bound)
would accept. -/
theorem validation_checks_raw_length_cex :
    validateKeyField (String.mk (List.replicate 255 'a' ++ [' '])) = none ∧
    specValidateKeyField (String.mk (List.replicate 255 'a' ++ [' '])) =
      some (String.mk (List.replicate 255 'a')) := by
  constructor <;> decide

/-- C4, amended: validation rejects exactly when the raw value is empty,
the raw value exceeds 255 characters, or the trimmed value is empty
(the length bounds are checked on the raw value before trimming); the
value carried forward, and used as the dedup key, is the trimmed one. -/
theorem validation_trims_after_raw_length_check (v : String) :
    validateKeyField v =
      if v.length = 0 ∨ 255 < v.length ∨ pyStrip v = "" then none
      else some (pyStrip v) := by
  by_cases h0 : v.length = 0
  · simp [validateKeyField, h0, Nat.lt_one_iff]
  · by_cases h255 : 255 < v.length
    · simp [validateKeyField, h0, h255, Nat.lt_one_iff]
    · by_cases hstrip : pyStrip v = ""
      · simp [validateKeyField, h0, h255, hstrip, Nat.lt_one_iff]
      · simp [validateKeyField, h0, h255, hstrip, Nat.lt_one_iff]

/-- Witness for C1 at the empty store, `evA` and N = 2. -/
theorem admit_same_event_idempotent_witness :
    (1 ≤ 2 ∧ hasKey db0 evA.topic evA.event_id = false) ∧
    ((admitN db0 evA "w" 2).events = (admitN db0 evA "w" 1).events ∧
     (admitN db0 evA "w" 2).stats.received = db0.stats.received + 2 ∧
     (admitN db0 evA "w" 2).stats.unique_processed =
       db0.stats.unique_processed + 1 ∧
     (admitN db0 evA "w" 2).stats.duplicate_dropped =
       db0.stats.duplicate_dropped + (2 - 1) ∧
     (admitN db0 evA "w" 2).audit_log = db0.audit_log ++
       ({ topic := evA.topic, event_id := evA.event_id,
          is_duplicate := false, worker_id := "w" } ::
         List.replicate (2 - 1)
           { topic := evA.topic, event_id := evA.event_id,
             is_duplicate := true, worker_id := "w" })) :=
  ⟨⟨by decide, by decide⟩,
   admit_same_event_idempotent db0 evA "w" 2 (by decide) (by decide)⟩

/-- Witness for C2 at the empty store, `evA` and the batch
`[evA, evA]`. -/
theorem stats_invariant_preserved_witness :
    (db0.stats.received =
      db0.stats.unique_processed + db0.stats.duplicate_dropped) ∧
    (((process_event db0 evA "w").1.stats.received =
        (process_event db0 evA "w").1.stats.unique_processed +
          (process_event db0 evA "w").1.stats.duplicate_dropped ∧
      db0.stats.received ≤ (process_event db0 evA "w").1.stats.received) ∧
    ((process_events_batch db0 [evA, evA] "w").1.stats.received =
        (process_events_batch db0 [evA, evA] "w").1.stats.unique_processed +
          (process_events_batch db0 [evA, evA] "w").1.stats.duplicate_dropped ∧
      db0.stats.received ≤
        (process_events_batch db0 [evA, evA] "w").1.stats.received)) :=
  ⟨by decide, stats_invariant_preserved db0 evA [evA, evA] "w" (by decide)⟩

/-- Witness for C5 at the empty store with `evA` and `evB`, distinct
topics sharing event id `X`. -/
theorem dedup_key_is_topic_and_event_id_witness :
    (evA.event_id = evB.event_id ∧ evA.topic ≠ evB.topic ∧
     hasKey db0 evA.topic evA.event_id = false ∧
     hasKey db0 evB.topic evB.event_id = false) ∧
    ((process_event db0 evA "w1").2.2 = false ∧
     (process_event (process_event db0 evA "w1").1 evB "w2").2.2 = false) :=
  ⟨⟨by decide, by decide, by decide, by decide⟩,
   dedup_key_is_topic_and_event_id db0 evA evB "w1" "w2"
     (by decide) (by decide) (by decide) (by decide)⟩

/-- Witness for C6 at the empty store with the insert statement
failing. -/
theorem admit_rolls_back_on_failure_witness :
    ((true || false || false) = true) ∧
    ((process_event_fallible db0 evA "w" true false false).1.events =
       db0.events ∧
     (process_event_fallible db0 evA "w" true false false).1.stats =
       db0.stats ∧
     (process_event_fallible db0 evA "w" true false false).1.audit_log =
       db0.audit_log ∧
     (process_event_fallible db0 evA "w" true false false).2.isSome = true) :=
  ⟨by decide, admit_rolls_back_on_failure db0 evA "w" true false false
    (by decide)⟩

end Aggregator
